import Mathlib

/-!
Verification development for the sensorbee/mqtt bridge.

The inbound bridge (source.go) is embedded as a labelled transition system:
the control thread of GenerateStream is a step function over an explicit
state (lifecycle phase, the capacity-one `disconnect` channel, and the
backoff state), and the environment (the MQTT client's completion tokens,
the connection-lost callback, the timer, and Stop callers) supplies events.
Durations are Go int64 nanoseconds, modelled as Int with explicit two's
complement wrapping where the code can overflow.

The outbound bridge (sink.go, the qos-aware variant) is embedded as pure
functions over a model of the sensorbee data.Value universe.
-/

namespace Mqtt

/-- Two's complement wrap-around of Go int64 arithmetic. -/
def i64wrap (x : Int) : Int := (x + 2 ^ 63) % 2 ^ 64 - 2 ^ 63

/-- Configuration fields of `source` used by the reconnect loop
(source.go lines 22-24): `minWait`, `maxWait` are time.Duration
(int64 nanoseconds), `reconnRetries` is int64. -/
structure SourceConfig where
  minWait : Int
  maxWait : Int
  reconnRetries : Int
deriving DecidableEq

/-- The two mutable backoff variables of GenerateStream
(source.go lines 65-66): `waitUntilReconnect` and `retries`. -/
structure BackoffState where
  wait : Int
  retries : Int
deriving DecidableEq

/-- The wait-duration update of `backoff` (source.go lines 68-77):
if the current wait is zero set it to minWait, otherwise double it
(int64 multiplication, which wraps), then truncate to maxWait. -/
def nextWait (cfg : SourceConfig) (w : Int) : Int :=
  let w2 := if w = 0 then cfg.minWait else i64wrap (w * 2)
  if w2 > cfg.maxWait then cfg.maxWait else w2

/-- The `backoff` closure of GenerateStream (source.go lines 67-87):
update the wait, then, when a nonnegative retry ceiling is configured,
give up once `retries` exceeds it, else increment `retries`. -/
def backoff (cfg : SourceConfig) (st : BackoffState) : Except String BackoffState :=
  let w := nextWait cfg st.wait
  if 0 ≤ cfg.reconnRetries then
    if st.retries > cfg.reconnRetries then
      .error "Gave up to connect to MQTT broker"
    else
      .ok ⟨w, st.retries + 1⟩
  else
    .ok ⟨w, st.retries⟩

/-- The sequence of wait durations produced by consecutive failures in
one outage episode: `waitUntilReconnect` starts at 0 and each failure
applies the wait-update of `backoff`. -/
def waitSeq (cfg : SourceConfig) : Nat → Int
  | 0 => 0
  | n + 1 => nextWait cfg (waitSeq cfg n)

theorem i64wrap_eq_of_lt {x : Int} (h0 : 0 ≤ x) (h1 : x < 2 ^ 63) : i64wrap x = x := by
  unfold i64wrap
  have hmod : (x + 2 ^ 63) % 2 ^ 64 = x + 2 ^ 63 :=
    Int.emod_eq_of_lt (by omega) (by omega)
  omega

/-- Range invariant of the wait update: starting inside `[0, maxWait]`
it stays inside `[0, maxWait]` when the configuration is sane. -/
theorem nextWait_bounds (cfg : SourceConfig) (w : Int)
    (hmin : 0 ≤ cfg.minWait) (hle : cfg.minWait ≤ cfg.maxWait)
    (hmax : cfg.maxWait ≤ 2 ^ 62 - 1)
    (h0 : 0 ≤ w) (h1 : w ≤ cfg.maxWait) :
    0 ≤ nextWait cfg w ∧ nextWait cfg w ≤ cfg.maxWait := by
  unfold nextWait
  by_cases hz : w = 0
  · simp only [hz, if_true]
    split <;> omega
  · simp only [hz, if_false]
    have hww : i64wrap (w * 2) = w * 2 := i64wrap_eq_of_lt (by omega) (by omega)
    rw [hww]
    split <;> omega

/-- Monotonicity of the wait update inside the invariant range. -/
theorem nextWait_mono (cfg : SourceConfig) (w : Int)
    (hmin : 0 ≤ cfg.minWait) (hle : cfg.minWait ≤ cfg.maxWait)
    (hmax : cfg.maxWait ≤ 2 ^ 62 - 1)
    (h0 : 0 ≤ w) (h1 : w ≤ cfg.maxWait) :
    w ≤ nextWait cfg w := by
  unfold nextWait
  by_cases hz : w = 0
  · simp only [hz, if_true]
    split <;> omega
  · simp only [hz, if_false]
    have hww : i64wrap (w * 2) = w * 2 := i64wrap_eq_of_lt (by omega) (by omega)
    rw [hww]
    split <;> omega

/-! ## The reconnect loop of GenerateStream as a labelled transition system

GenerateStream (source.go lines 30-147) runs an endless loop whose
suspension points are: the top-of-loop select between the backoff timer
and the capacity-one `disconnect` channel (lines 96-102), the bounded
connect wait (line 106), the bounded subscribe wait (line 116), and the
blocking receive in the active state (line 134).  `Stop` (lines 149-154)
and the `OnConnectionLost` callback (lines 43-48) send `false` resp.
`true` into the channel; a send is only possible while the one-slot
buffer is empty (a sender on a full channel stays blocked).  When the
channel holds a value at a select point the receive case is the ready
one and is taken; the timer case fires only with an empty buffer. -/

/-- Control position of the GenerateStream loop. -/
inductive Phase
  | waiting      -- top-of-loop select, lines 96-102
  | connecting   -- client.Connect issued, line 106
  | subscribing  -- client.Subscribe issued, line 116
  | active       -- blocked on the disconnect channel, line 134
  | doneOk       -- returned nil, lines 140/146
  | doneErr      -- returned the backoff error, lines 108/118
deriving DecidableEq

/-- State of the control thread plus the one-slot `disconnect` channel.
`graceful` counts the Disconnect(250) calls of the shutdown path
(line 139). -/
structure RunState where
  phase : Phase
  chan : Option Bool
  wait : Int
  retries : Int
  graceful : Nat
deriving DecidableEq

/-- Environment events: channel sends from Stop (`send false`) or the
connection-lost callback (`send true`), the backoff timer firing, the
two select receives, and the completion of the bounded connect and
subscribe waits.  `completed` is the value of WaitTimeout (false means
the 10 second budget elapsed first), `err` tells whether the token
carries a non-nil error. -/
inductive Ev
  | send (b : Bool)
  | timerFires
  | recv
  | connectResult (completed err : Bool)
  | subscribeResult (completed err : Bool)
  | activeRecv
deriving DecidableEq

/-- State at entry of the reconnect loop (source.go lines 65-66, 90):
wait and retries are zero and the freshly made channel is empty. -/
def initState : RunState := ⟨.waiting, none, 0, 0, 0⟩

/-- One transition of the loop.  `none` means the event is not enabled
in this state (a send on a full channel stays blocked, results only
arrive for an issued operation, receives need a buffered value). -/
def step (cfg : SourceConfig) (s : RunState) : Ev → Option RunState
  | .send b =>
    match s.chan with
    | none => some { s with chan := some b }
    | some _ => none
  | .timerFires =>
    match s.phase, s.chan with
    | .waiting, none => some { s with phase := .connecting }
    | _, _ => none
  | .recv =>
    match s.phase, s.chan with
    | .waiting, some b =>
      some { s with chan := none, phase := if b then .connecting else .doneOk }
    | _, _ => none
  | .connectResult completed err =>
    match s.phase with
    | .connecting =>
      if completed && err then
        match backoff cfg ⟨s.wait, s.retries⟩ with
        | .error _ => some { s with phase := .doneErr }
        | .ok st => some { s with phase := .waiting, wait := st.wait, retries := st.retries }
      else
        some { s with phase := .subscribing }
    | _ => none
  | .subscribeResult completed err =>
    match s.phase with
    | .subscribing =>
      if completed && err then
        match backoff cfg ⟨s.wait, s.retries⟩ with
        | .error _ => some { s with phase := .doneErr }
        | .ok st => some { s with phase := .waiting, wait := st.wait, retries := st.retries }
      else
        some { s with phase := .active, wait := 0, retries := 0 }
    | _ => none
  | .activeRecv =>
    match s.phase, s.chan with
    | .active, some b =>
      some (if b then { s with chan := none, phase := .waiting }
            else { s with chan := none, phase := .doneOk, graceful := s.graceful + 1 })
    | _, _ => none

/-- Run the loop from `s` through a list of environment events; `none`
when some event of the list is not enabled where it occurs. -/
def runFrom (cfg : SourceConfig) : RunState → List Ev → Option RunState
  | s, [] => some s
  | s, ev :: evs =>
    match step cfg s ev with
    | none => none
    | some t => runFrom cfg t evs

/-- GenerateStream has returned. -/
def phaseDone : Phase → Bool
  | .doneOk => true
  | .doneErr => true
  | _ => false

/-- Steps remaining before termination once a stop signal is buffered. -/
def fuel : Phase → Nat
  | .waiting => 1
  | .connecting => 3
  | .subscribing => 2
  | .active => 1
  | .doneOk => 0
  | .doneErr => 0

theorem waitSeq_bounds (cfg : SourceConfig)
    (hmin : 0 ≤ cfg.minWait) (hle : cfg.minWait ≤ cfg.maxWait)
    (hmax : cfg.maxWait ≤ 2 ^ 62 - 1) :
    ∀ n, 0 ≤ waitSeq cfg n ∧ waitSeq cfg n ≤ cfg.maxWait := by
  intro n
  induction n with
  | zero => simp only [waitSeq]; omega
  | succ n ih => exact nextWait_bounds cfg _ hmin hle hmax ih.1 ih.2

/-- Invariant rule: a property preserved by every enabled step holds at
the end of every trace on which it holds at the start. -/
theorem runFrom_inv (cfg : SourceConfig) (P : RunState → Prop)
    (hstep : ∀ s ev t, P s → step cfg s ev = some t → P t) (evs : List Ev) :
    ∀ s t, P s → runFrom cfg s evs = some t → P t := by
  induction evs with
  | nil =>
    intro s t hs h
    simp only [runFrom, Option.some.injEq] at h
    exact h ▸ hs
  | cons ev evs ih =>
    intro s t hs h
    simp only [runFrom] at h
    cases hst : step cfg s ev with
    | none => rw [hst] at h; exact absurd h (by simp)
    | some s2 => rw [hst] at h; exact ih s2 t (hstep s ev s2 hs hst) h

/-- Terminal phases are absorbing: the only event enabled after the
loop returned is a send into the still-allocated channel, which leaves
the phase unchanged. -/
theorem step_done_phase (cfg : SourceConfig) {s t : RunState} {ev : Ev}
    (hd : phaseDone s.phase = true) (h : step cfg s ev = some t) :
    t.phase = s.phase := by
  obtain ⟨ph, ch, w, r, g⟩ := s
  cases ph <;> simp only [phaseDone, Bool.false_eq_true] at hd <;>
    cases ev <;> cases ch <;> simp [step] at h <;> simp [← h]

/-- Trace version of `step_done_phase`. -/
theorem runFrom_done_phase (cfg : SourceConfig) (evs : List Ev)
    {s t : RunState} (hd : phaseDone s.phase = true)
    (h : runFrom cfg s evs = some t) : t.phase = s.phase := by
  refine runFrom_inv cfg (fun u => u.phase = s.phase) ?_ evs s t rfl h
  intro a ev b ha hb
  rw [step_done_phase cfg (ha ▸ hd) hb, ha]

/-- `backoff` gives up only when a nonnegative retry ceiling is
configured and already exceeded. -/
theorem backoff_error_facts (cfg : SourceConfig) (st : BackoffState) (m : String)
    (h : backoff cfg st = .error m) :
    0 ≤ cfg.reconnRetries ∧ st.retries > cfg.reconnRetries := by
  unfold backoff at h
  split at h
  · split at h
    · exact ⟨by assumption, by assumption⟩
    · exact absurd h (by simp)
  · exact absurd h (by simp)

/-- Once a stop signal is buffered, every enabled step either terminates
the loop or keeps the signal buffered while strictly decreasing `fuel`. -/
theorem step_stop_pending (cfg : SourceConfig) {s t : RunState} {ev : Ev}
    (hch : s.chan = some false) (hnd : phaseDone s.phase = false)
    (h : step cfg s ev = some t) :
    phaseDone t.phase = true ∨ (t.chan = some false ∧ fuel t.phase < fuel s.phase) := by
  obtain ⟨ph, ch, w, r, g⟩ := s
  simp only at hch
  subst hch
  cases ev with
  | send b => simp [step] at h
  | timerFires => cases ph <;> simp [step] at h
  | recv =>
    cases ph <;> simp [step] at h
    simp [← h, phaseDone]
  | connectResult c e =>
    cases ph
    case connecting =>
      cases c <;> cases e <;> simp [step] at h
      case true.true =>
        cases hb : backoff cfg ⟨w, r⟩ with
        | error m => rw [hb] at h; simp at h; simp [← h, phaseDone]
        | ok st => rw [hb] at h; simp at h; right; simp [← h, fuel]
      all_goals (right; simp [← h, fuel])
    all_goals simp [step] at h
  | subscribeResult c e =>
    cases ph
    case subscribing =>
      cases c <;> cases e <;> simp [step] at h
      case true.true =>
        cases hb : backoff cfg ⟨w, r⟩ with
        | error m => rw [hb] at h; simp at h; simp [← h, phaseDone]
        | ok st => rw [hb] at h; simp at h; right; simp [← h, fuel]
      all_goals (right; simp [← h, fuel])
    all_goals simp [step] at h
  | activeRecv =>
    cases ph <;> simp [step] at h
    simp [← h, phaseDone]

/-- With a stop signal buffered the loop is never stuck. -/
theorem progress_stop_pending (cfg : SourceConfig) {s : RunState}
    (hch : s.chan = some false) (hnd : phaseDone s.phase = false) :
    ∃ ev t, step cfg s ev = some t := by
  obtain ⟨ph, ch, w, r, g⟩ := s
  simp only at hch
  subst hch
  cases ph with
  | waiting => exact ⟨.recv, _, rfl⟩
  | connecting => exact ⟨.connectResult false false, _, rfl⟩
  | subscribing => exact ⟨.subscribeResult false false, _, rfl⟩
  | active => exact ⟨.activeRecv, _, rfl⟩
  | doneOk => simp [phaseDone] at hnd
  | doneErr => simp [phaseDone] at hnd

/-- Bounded termination: with a stop signal buffered, a trace that has
not yet terminated is shorter than the fuel of its start state. -/
theorem runFrom_stop_pending_len (cfg : SourceConfig) (evs : List Ev) :
    ∀ s t, s.chan = some false → runFrom cfg s evs = some t →
      phaseDone t.phase = false →
      evs.length < fuel s.phase ∧ t.chan = some false := by
  induction evs with
  | nil =>
    intro s t hch h hnd
    simp only [runFrom, Option.some.injEq] at h
    obtain rfl := h
    refine ⟨?_, hch⟩
    cases hp : s.phase <;> simp [hp, fuel] <;> simp [hp, phaseDone] at hnd
  | cons ev evs ih =>
    intro s t hch h hnd
    simp only [runFrom] at h
    cases hst : step cfg s ev with
    | none => rw [hst] at h; exact absurd h (by simp)
    | some s2 =>
      rw [hst] at h
      by_cases hd : phaseDone s.phase
      · exact absurd (runFrom_done_phase cfg evs
          (step_done_phase cfg hd hst ▸ hd) h ▸ step_done_phase cfg hd hst ▸ hd)
          (by simp [hnd])
      · rcases step_stop_pending cfg hch (by simpa using hd) hst with h2 | ⟨hch2, hlt⟩
        · exact absurd (runFrom_done_phase cfg evs h2 h ▸ h2) (by simp [hnd])
        · have := ih s2 t hch2 h hnd
          exact ⟨by simp only [List.length_cons]; omega, this.2⟩

/-- The error return can only be produced under a nonnegative retry
ceiling. -/
theorem runFrom_doneErr (cfg : SourceConfig) (evs : List Ev) :
    ∀ s t, runFrom cfg s evs = some t → t.phase = .doneErr →
      s.phase = .doneErr ∨ 0 ≤ cfg.reconnRetries := by
  induction evs with
  | nil =>
    intro s t h he
    simp only [runFrom, Option.some.injEq] at h
    exact .inl (h ▸ he)
  | cons ev evs ih =>
    intro s t h he
    simp only [runFrom] at h
    cases hst : step cfg s ev with
    | none => rw [hst] at h; exact absurd h (by simp)
    | some s2 =>
      rw [hst] at h
      rcases ih s2 t h he with h2 | h2
      · -- the step into doneErr applied backoff and got its error
        obtain ⟨ph, ch, w, r, g⟩ := s
        cases ev with
        | send b =>
          cases ch <;> simp [step] at hst
          simp [← hst] at h2; exact .inl h2
        | timerFires =>
          cases ph <;> cases ch <;> simp [step] at hst <;> simp [← hst] at h2
        | recv =>
          cases ph <;> cases ch <;> simp [step] at hst <;> simp [← hst] at h2
          rename_i b; cases b <;> simp at h2
        | connectResult c e =>
          cases ph
          case connecting =>
            cases c <;> cases e <;> simp [step] at hst
            case true.true =>
              cases hb : backoff cfg ⟨w, r⟩ with
              | error m => exact .inr (backoff_error_facts cfg _ m hb).1
              | ok st => rw [hb] at hst; simp at hst; simp [← hst] at h2
            all_goals simp [← hst] at h2
          all_goals simp [step] at hst
        | subscribeResult c e =>
          cases ph
          case subscribing =>
            cases c <;> cases e <;> simp [step] at hst
            case true.true =>
              cases hb : backoff cfg ⟨w, r⟩ with
              | error m => exact .inr (backoff_error_facts cfg _ m hb).1
              | ok st => rw [hb] at hst; simp at hst; simp [← hst] at h2
            all_goals simp [← hst] at h2
          all_goals simp [step] at hst
        | activeRecv =>
          cases ph <;> cases ch <;> simp [step] at hst <;> simp [← hst] at h2
          rename_i b; cases b <;> simp at h2
      · exact .inr h2

/-- Entering the active phase happens only by a successful subscribe,
which zeroes the backoff state; a send while already active leaves the
backoff state alone. -/
theorem step_into_active (cfg : SourceConfig) {s t : RunState} {ev : Ev}
    (h : step cfg s ev = some t) (ha : t.phase = .active) :
    (s.phase = .active ∧ t.wait = s.wait ∧ t.retries = s.retries) ∨
    (t.wait = 0 ∧ t.retries = 0) := by
  obtain ⟨ph, ch, w, r, g⟩ := s
  cases ev with
  | send b =>
    cases ch <;> simp [step] at h
    simp [← h] at ha ⊢
    exact .inl ha
  | timerFires => cases ph <;> cases ch <;> simp [step] at h <;> simp [← h] at ha
  | recv =>
    cases ph <;> cases ch <;> simp [step] at h <;> simp [← h] at ha
    rename_i b; cases b <;> simp at ha
  | connectResult c e =>
    cases ph
    case connecting =>
      cases c <;> cases e <;> simp [step] at h
      case true.true =>
        cases hb : backoff cfg ⟨w, r⟩ with
        | error m => rw [hb] at h; simp at h; simp [← h] at ha
        | ok st => rw [hb] at h; simp at h; simp [← h] at ha
      all_goals simp [← h] at ha
    all_goals simp [step] at h
  | subscribeResult c e =>
    cases ph
    case subscribing =>
      cases c <;> cases e <;> simp [step] at h
      case true.true =>
        cases hb : backoff cfg ⟨w, r⟩ with
        | error m => rw [hb] at h; simp at h; simp [← h] at ha
        | ok st => rw [hb] at h; simp at h; simp [← h] at ha
      all_goals (right; simp [← h])
    all_goals simp [step] at h
  | activeRecv =>
    cases ph <;> cases ch <;> simp [step] at h
    rename_i b; cases b <;> simp [← h] at ha <;> simp at ha

/-- Channel sends leave `graceful` alone except for the graceful
shutdown transition out of the active phase. -/
theorem step_graceful (cfg : SourceConfig) {s t : RunState} {ev : Ev}
    (h : step cfg s ev = some t) :
    t.graceful = s.graceful ∨
      (s.phase = .active ∧ t.graceful = s.graceful + 1 ∧ t.phase = .doneOk) := by
  obtain ⟨ph, ch, w, r, g⟩ := s
  cases ev with
  | send b =>
    cases ch <;> simp [step] at h
    simp [← h]
  | timerFires =>
    cases ph <;> cases ch <;> simp [step] at h <;> simp [← h]
  | recv =>
    cases ph <;> cases ch <;> simp [step] at h <;> simp [← h]
  | connectResult c e =>
    cases ph
    case connecting =>
      cases c <;> cases e <;> simp [step] at h
      case true.true =>
        cases hb : backoff cfg ⟨w, r⟩ with
        | error m => rw [hb] at h; simp at h; simp [← h]
        | ok st => rw [hb] at h; simp at h; simp [← h]
      all_goals simp [← h]
    all_goals simp [step] at h
  | subscribeResult c e =>
    cases ph
    case subscribing =>
      cases c <;> cases e <;> simp [step] at h
      case true.true =>
        cases hb : backoff cfg ⟨w, r⟩ with
        | error m => rw [hb] at h; simp at h; simp [← h]
        | ok st => rw [hb] at h; simp at h; simp [← h]
      all_goals simp [← h]
    all_goals simp [step] at h
  | activeRecv =>
    cases ph <;> cases ch <;> simp [step] at h
    rename_i b; cases b <;> simp [← h]

/-! ## Concrete configurations -/

/-- The NewSource defaults (source.go lines 188-190): minWait 1s,
maxWait 30s (nanoseconds), reconnect_retries 10. -/
def cfgEx : SourceConfig := ⟨1000000000, 30000000000, 10⟩

/-- Defaults with reconnect_retries = 0. -/
def cfgR0 : SourceConfig := ⟨1000000000, 30000000000, 0⟩

/-- Defaults with reconnect_retries = -1 (documented as infinite). -/
def cfgRneg : SourceConfig := ⟨1000000000, 30000000000, -1⟩

/-- reconnect_min_time = -1ns: Go durations are signed int64 and
NewSource (source.go lines 227-237) parses them without a sign check. -/
def cfgNegMin : SourceConfig := ⟨-1, 30000000000, 10⟩

/-- All thirteen environment events. -/
def evList : List Ev :=
  [.send false, .send true, .timerFires, .recv, .activeRecv,
   .connectResult false false, .connectResult false true,
   .connectResult true false, .connectResult true true,
   .subscribeResult false false, .subscribeResult false true,
   .subscribeResult true false, .subscribeResult true true]

theorem evList_complete (ev : Ev) : ev ∈ evList := by
  cases ev with
  | send b => cases b <;> decide
  | connectResult c e => cases c <;> cases e <;> decide
  | subscribeResult c e => cases c <;> cases e <;> decide
  | timerFires => decide
  | recv => decide
  | activeRecv => decide

/-! ## Claim theorems for the reconnect controller -/

/-- C1 (amended): once a stop request has been delivered into the
disconnect channel, the loop never blocks: some event is always enabled,
every continuation reaches a terminal phase after at most two further
non-terminal transitions (each bounded by a 10-second connect/subscribe
wait or an immediate channel receive), and the run returns nil unless a
concurrent connect or subscribe failure exhausts a finite (nonnegative)
retry ceiling, in which case it returns the retries-exhausted error. -/
theorem run_stop_pending_terminates (cfg : SourceConfig) (s : RunState)
    (hch : s.chan = some false) :
    (phaseDone s.phase = false → ∃ ev t, step cfg s ev = some t) ∧
    (∀ evs t, runFrom cfg s evs = some t → phaseDone t.phase = false →
      evs.length ≤ 2) ∧
    (∀ evs t, runFrom cfg s evs = some t → t.phase = .doneErr →
      s.phase = .doneErr ∨ 0 ≤ cfg.reconnRetries) := by
  refine ⟨fun hnd => progress_stop_pending cfg hch hnd, fun evs t h hnd => ?_,
    fun evs t h he => runFrom_doneErr cfg evs s t h he⟩
  have h1 := (runFrom_stop_pending_len cfg evs s t hch h hnd).1
  have hf : fuel s.phase ≤ 3 := by cases s.phase <;> simp [fuel]
  omega

theorem run_stop_pending_terminates_witness :
    (RunState.mk .connecting (some false) 1000000000 1 0).phase = .doneErr ∨
      0 ≤ cfgR0.reconnRetries :=
  (run_stop_pending_terminates cfgR0 ⟨.connecting, some false, 1000000000, 1, 0⟩ rfl).2.2
    [.connectResult true true] ⟨.doneErr, some false, 1000000000, 1, 0⟩ (by decide) rfl

/-- Environment trace for the C1 counterexample: a first connect failure
consumes the retry budget of `reconnect_retries = 0`; the stop request is
delivered while the second connect is in flight, and that connect also
fails within its budget. -/
def stopErrTrace : List Ev :=
  [.timerFires, .connectResult true true, .timerFires, .send false,
   .connectResult true true]

/-- C1 counterexample: a stop request delivered while run() is executing
does not always end in the nil return: with reconnect_retries = 0 the
in-flight connect failure exhausts the ceiling and run() returns the
gave-up error even though the stop signal is sitting in the channel. -/
theorem run_stop_pending_error_outcome :
    runFrom cfgR0 initState stopErrTrace
      = some ⟨.doneErr, some false, 1000000000, 1, 0⟩ ∧
    Phase.doneErr ≠ Phase.doneOk := by decide

/-- C2 (code bug): with reconnect_retries = 0, the first connect failure
does not terminate the loop: `backoff` sees `retries = 0 ≤ 0`, returns
nil and bumps retries to 1, so the loop waits minWait and issues a second
connection attempt; only the second consecutive failure produces the
gave-up error.  With a negative ceiling `backoff` never errors at all. -/
theorem reconnect_retries_zero_second_attempt :
    step cfgR0 ⟨.connecting, none, 0, 0, 0⟩ (.connectResult true true)
      = some ⟨.waiting, none, 1000000000, 1, 0⟩ ∧
    step cfgR0 ⟨.connecting, none, 1000000000, 1, 0⟩ (.connectResult true true)
      = some ⟨.doneErr, none, 1000000000, 1, 0⟩ ∧
    ∀ st : BackoffState, backoff cfgRneg st = .ok ⟨nextWait cfgRneg st.wait, st.retries⟩ :=
  ⟨by decide, by decide, fun st => rfl⟩

/-- C3 counterexample: `minWait ≤ maxWait` alone does not make the wait
sequence non-decreasing, because Go durations are signed: with
reconnect_min_time = -1ns the doubled waits decrease. -/
theorem backoff_not_monotone_for_negative_minWait :
    cfgNegMin.minWait ≤ cfgNegMin.maxWait ∧
    waitSeq cfgNegMin 1 = -1 ∧ waitSeq cfgNegMin 2 = -2 ∧
    ¬ waitSeq cfgNegMin 1 ≤ waitSeq cfgNegMin 2 := by decide

/-- C3 (amended): for every configuration with
0 ≤ minWait ≤ maxWait ≤ 2^62 - 1 nanoseconds (so that the int64 doubling
cannot wrap), the backoff wait sequence is monotonically non-decreasing
and never exceeds maxWait; for minWait = 1s, maxWait = 30s the
successive waits are 1s, 2s, 4s, 8s, 16s, 30s, 30s. -/
theorem backoff_sequence_monotone (cfg : SourceConfig)
    (hmin : 0 ≤ cfg.minWait) (hle : cfg.minWait ≤ cfg.maxWait)
    (hmax : cfg.maxWait ≤ 2 ^ 62 - 1) :
    (∀ n, waitSeq cfg n ≤ waitSeq cfg (n + 1)) ∧
    (∀ n, waitSeq cfg n ≤ cfg.maxWait) ∧
    (List.range 8).map (waitSeq cfgEx) =
      [0, 1000000000, 2000000000, 4000000000, 8000000000, 16000000000,
       30000000000, 30000000000] := by
  refine ⟨fun n => ?_, fun n => (waitSeq_bounds cfg hmin hle hmax n).2, by decide⟩
  have hb := waitSeq_bounds cfg hmin hle hmax n
  exact nextWait_mono cfg _ hmin hle hmax hb.1 hb.2

theorem backoff_sequence_monotone_witness :
    waitSeq cfgEx 3 ≤ waitSeq cfgEx 4 ∧ waitSeq cfgEx 4 ≤ cfgEx.maxWait :=
  ⟨(backoff_sequence_monotone cfgEx (by decide) (by decide) (by decide)).1 3,
   (backoff_sequence_monotone cfgEx (by decide) (by decide) (by decide)).2.1 4⟩

/-- C4: every transition into the active phase zeroes the wait and the
retry counter; along any trace from the initial state an active-phase
state always carries wait 0 and retries 0, no matter how many failures
preceded it; and from the zeroed state the next failure restarts the
backoff at minWait with a freshly incremented retry count of 1. -/
theorem subscribe_success_resets_backoff (cfg : SourceConfig) :
    (∀ s t ev, step cfg s ev = some t → t.phase = .active →
      s.phase = .active ∨ (t.wait = 0 ∧ t.retries = 0)) ∧
    (∀ evs t, runFrom cfg initState evs = some t → t.phase = .active →
      t.wait = 0 ∧ t.retries = 0) ∧
    (0 ≤ cfg.reconnRetries → cfg.minWait ≤ cfg.maxWait →
      backoff cfg ⟨0, 0⟩ = .ok ⟨cfg.minWait, 1⟩) := by
  refine ⟨fun s t ev h ha => (step_into_active cfg h ha).imp (fun x => x.1) id,
    fun evs t h ha => ?_, fun hr hle => ?_⟩
  · have hstep : ∀ a ev b, (a.phase = .active → a.wait = 0 ∧ a.retries = 0) →
        step cfg a ev = some b → (b.phase = .active → b.wait = 0 ∧ b.retries = 0) := by
      intro a ev b hPa hb hbActive
      rcases step_into_active cfg hb hbActive with ⟨hsa, hw, hre⟩ | hz
      · obtain ⟨h1, h2⟩ := hPa hsa
        exact ⟨hw.trans h1, hre.trans h2⟩
      · exact hz
    exact runFrom_inv cfg (fun u => u.phase = .active → u.wait = 0 ∧ u.retries = 0)
      (fun a ev b hPa hb => hstep a ev b hPa hb) evs initState t
      (by intro hx; exact ⟨rfl, rfl⟩) h ha
  · have h1 : nextWait cfg 0 = cfg.minWait := by
      simp only [nextWait, if_true]
      rw [if_neg (by omega)]
    simp only [backoff]
    rw [if_pos hr, if_neg (by omega), h1]
    norm_num

theorem subscribe_success_resets_backoff_witness :
    backoff cfgEx ⟨0, 0⟩ = .ok ⟨cfgEx.minWait, 1⟩ :=
  (subscribe_success_resets_backoff cfgEx).2.2 (by decide) (by decide)

/-- C5 (amended): a stop request before any connection exists leads to
the nil return; a second Stop call after termination is accepted into
the channel and does not change the terminal outcome; the graceful
Disconnect(250) happens at most once on any trace (no double
disconnect); terminal phases are absorbing; but the state left by two
Stop calls enables no event at all, so a third Stop call, which must
send into the still-full one-slot channel, blocks its caller forever. -/
theorem requestStop_safe_idempotent (cfg : SourceConfig) :
    runFrom cfg initState [.send false, .recv] = some ⟨.doneOk, none, 0, 0, 0⟩ ∧
    runFrom cfg initState [.send false, .recv, .send false]
      = some ⟨.doneOk, some false, 0, 0, 0⟩ ∧
    (∀ evs t, runFrom cfg initState evs = some t → t.graceful ≤ 1) ∧
    (∀ evs s t, phaseDone s.phase = true → runFrom cfg s evs = some t →
      t.phase = s.phase) ∧
    (∀ ev t, step cfg ⟨.doneOk, some false, 0, 0, 0⟩ ev = some t → False) := by
  refine ⟨rfl, rfl, fun evs t h => ?_, fun evs s t hd h => runFrom_done_phase cfg evs hd h,
    fun ev t h => ?_⟩
  · have hstep : ∀ a ev b,
        ((phaseDone a.phase = false → a.graceful = 0) ∧ a.graceful ≤ 1) →
        step cfg a ev = some b →
        ((phaseDone b.phase = false → b.graceful = 0) ∧ b.graceful ≤ 1) := by
      intro a ev b hPa hb
      rcases step_graceful cfg hb with hg | ⟨hact, hg, hbp⟩
      · by_cases hd : phaseDone a.phase
        · have := step_done_phase cfg hd hb
          exact ⟨fun hbnd => absurd (this ▸ hbnd) (by simp [hd]), hg ▸ hPa.2⟩
        · have h0 : a.graceful = 0 := hPa.1 (by simpa using hd)
          exact ⟨fun _ => hg.trans h0, by omega⟩
      · have h0 : a.graceful = 0 := hPa.1 (by simp [hact, phaseDone])
        refine ⟨fun hbnd => absurd hbnd (by simp [hbp, phaseDone]), by omega⟩
    exact (runFrom_inv cfg
      (fun u => (phaseDone u.phase = false → u.graceful = 0) ∧ u.graceful ≤ 1)
      hstep evs initState t ⟨fun _ => rfl, by simp [initState]⟩ h).2
  · cases ev <;> simp [step] at h

theorem requestStop_safe_idempotent_witness :
    RunState.graceful ⟨.doneOk, some false, 0, 0, 0⟩ ≤ 1 :=
  (requestStop_safe_idempotent cfgEx).2.2.1 [.send false, .recv, .send false]
    ⟨.doneOk, some false, 0, 0, 0⟩ rfl

/-- C5 counterexample: after run() consumed one stop signal and
returned, a second Stop call fills the one-slot channel again; in the
resulting state no event is enabled any more, so a third Stop call can
never complete its send and blocks forever — "two or more" calls are
not all safe, only up to two are. -/
theorem third_requestStop_never_accepted :
    runFrom cfgEx initState [.send false, .recv, .send false]
      = some ⟨.doneOk, some false, 0, 0, 0⟩ ∧
    (evList.all fun ev => (step cfgEx ⟨.doneOk, some false, 0, 0, 0⟩ ev).isNone)
      = true := by decide

/-- C10: the retry branch of the connect and of the subscribe step runs
exactly when the bounded 10-second wait completed AND the token reports
a non-nil error; when the wait times out first, the loop falls through
to the next phase (subscribe after connect, active after subscribe)
without touching the backoff state. -/
theorem timeout_treated_as_success (cfg : SourceConfig) (s : RunState) :
    (s.phase = .connecting → ∀ e, step cfg s (.connectResult false e)
      = some { s with phase := .subscribing }) ∧
    (s.phase = .subscribing → ∀ e, step cfg s (.subscribeResult false e)
      = some { s with phase := .active, wait := 0, retries := 0 }) ∧
    (∀ c e t, s.phase = .connecting → step cfg s (.connectResult c e) = some t →
      t.phase = .waiting ∨ t.phase = .doneErr → c = true ∧ e = true) ∧
    (∀ c e t, s.phase = .subscribing → step cfg s (.subscribeResult c e) = some t →
      t.phase = .waiting ∨ t.phase = .doneErr → c = true ∧ e = true) := by
  obtain ⟨ph, ch, w, r, g⟩ := s
  refine ⟨fun hp e => ?_, fun hp e => ?_, fun c e t hp h hw => ?_, fun c e t hp h hw => ?_⟩
  · simp only at hp; subst hp; rfl
  · simp only at hp; subst hp; rfl
  · simp only at hp; subst hp
    cases c <;> cases e <;> simp [step] at h
    case true.true => exact ⟨rfl, rfl⟩
    all_goals simp [← h] at hw
  · simp only at hp; subst hp
    cases c <;> cases e <;> simp [step] at h
    case true.true => exact ⟨rfl, rfl⟩
    all_goals simp [← h] at hw

theorem timeout_treated_as_success_witness :
    step cfgEx ⟨.connecting, none, 0, 0, 0⟩ (.connectResult false true)
      = some ⟨.subscribing, none, 0, 0, 0⟩ :=
  (timeout_treated_as_success cfgEx ⟨.connecting, none, 0, 0, 0⟩).1 rfl true

/-! ## The outbound bridge: sink.Write (sink.go, qos-aware variant)

The sensorbee data package is an external collaborator; its value
universe, field lookup, strict conversions and text serialization are
modelled here only as far as sink.Write observes them: `dGet` models
`t.Data.Get` with a single-name path on the top-level map, `asString`
and `asInt` model the strict `data.AsString` / `data.AsInt` casts, and
`jsonString` stands for the canonical text serialization
`data.Value.String()` used for array and map payloads. -/

/-- The type tags of sensorbee data.Value. -/
inductive VType
  | null
  | bool
  | int
  | float
  | str
  | blob
  | timestamp
  | array
  | map
deriving DecidableEq

/-- Model of sensorbee data.Value. Float and timestamp payloads are
carried opaquely (as raw bits / ticks); sink.Write never looks inside
them. -/
inductive Value
  | null
  | bool (b : Bool)
  | int (i : Int)
  | float (bits : Nat)
  | str (s : String)
  | blob (b : List Nat)
  | timestamp (t : Nat)
  | array (xs : List Value)
  | map (kvs : List (String × Value))

/-- `Value.Type()`. -/
def Value.vtype : Value → VType
  | .null => .null
  | .bool _ => .bool
  | .int _ => .int
  | .float _ => .float
  | .str _ => .str
  | .blob _ => .blob
  | .timestamp _ => .timestamp
  | .array _ => .array
  | .map _ => .map

mutual
/-- Canonical JSON-equivalent text serialization of a value, standing
for `data.Value.String()` (the encodings of the scalar leaves are
abbreviated; the claims only inspect the fact that array and map
payloads go through this serialization). -/
def jsonString : Value → String
  | .null => "null"
  | .bool b => if b then "true" else "false"
  | .int i => toString i
  | .float _ => "0"
  | .str s => "\"" ++ s ++ "\""
  | .blob _ => "\"\""
  | .timestamp _ => "\"\""
  | .array xs => "[" ++ jsonArr xs ++ "]"
  | .map kvs => "\x7b" ++ jsonObj kvs ++ "\x7d"

def jsonArr : List Value → String
  | [] => ""
  | [x] => jsonString x
  | x :: xs => jsonString x ++ "," ++ jsonArr xs

def jsonObj : List (String × Value) → String
  | [] => ""
  | [(k, v)] => "\"" ++ k ++ "\":" ++ jsonString v
  | (k, v) :: xs => "\"" ++ k ++ "\":" ++ jsonString v ++ "," ++ jsonObj xs
end

/-- UTF-8 encoding of one code point. -/
def utf8Char (c : Nat) : List Nat :=
  if c < 128 then [c]
  else if c < 2048 then [192 + c / 64, 128 + c % 64]
  else if c < 65536 then [224 + c / 4096, 128 + c / 64 % 64, 128 + c % 64]
  else [240 + c / 262144, 128 + c / 4096 % 64, 128 + c / 64 % 64, 128 + c % 64]

/-- The bytes of a Go string: `[]byte(str)` is its UTF-8 encoding. -/
def strBytes (s : String) : List Nat :=
  (s.data.map (fun c => utf8Char c.toNat)).flatten

/-- `t.Data.Get` with a single-name path: look the key up in the
top-level map; `none` models the lookup error for a missing field. -/
def dGet (td : List (String × Value)) (k : String) : Option Value :=
  match td with
  | [] => none
  | (k2, v) :: rest => if k2 = k then some v else dGet rest k

/-- Strict `data.AsString`: only TypeString converts. -/
def asString : Value → Option String
  | .str s => some s
  | _ => none

/-- Strict `data.AsInt`: only TypeInt converts. -/
def asInt : Value → Option Int
  | .int i => some i
  | _ => none

/-- Configuration of `sink` (sink.go lines 189-198) as far as Write
reads it; the field paths are single names. -/
structure SinkConfig where
  qos : Nat
  retained : Bool
  payloadField : String
  topicField : String
  qosField : String
  defaultTopic : String
deriving DecidableEq

/-- The arguments Write hands to `client.Publish` (sink.go line 247). -/
structure PublishCall where
  topic : String
  qos : Nat
  retained : Bool
  payload : List Nat
deriving DecidableEq

/-- The error returns of sink.Write (sink.go lines 200-245), tagged. -/
inductive WriteError
  | payloadFieldMissing
  | unsupportedPayloadType (t : VType)
  | topicFieldMissing
  | topicNotString (t : VType)
  | qosNotInt (t : VType)
  | wrongQoS (q : Int)
deriving DecidableEq

/-- The NewSink defaults (sink.go lines 286-296). -/
def defaultSinkConfig : SinkConfig := ⟨0, false, "payload", "topic", "qos", ""⟩

/-- The qos resolution and publish of sink.Write (sink.go lines
233-250), reached with payload bytes `b` and resolved `topic`: an
absent qos field falls back to the configured default; a present one
must be an int in 0..2. -/
def publishQoS (s : SinkConfig) (td : List (String × Value)) (b : List Nat)
    (topic : String) : Except WriteError (Option PublishCall) :=
  match dGet td s.qosField with
  | none => .ok (some ⟨topic, s.qos, s.retained, b⟩)
  | some qv =>
    match asInt qv with
    | none => .error (.qosNotInt qv.vtype)
    | some qq =>
      if qq < 0 || qq > 2 then .error (.wrongQoS qq)
      else .ok (some ⟨topic, qq.toNat, s.retained, b⟩)

/-- The topic resolution of sink.Write (sink.go lines 223-231), reached
once the payload resolved to the bytes `b`: a missing topic field falls
back to a non-empty default topic, a present one must be a string. -/
def publishWith (s : SinkConfig) (td : List (String × Value)) (b : List Nat) :
    Except WriteError (Option PublishCall) :=
  match dGet td s.topicField with
  | none =>
    if s.defaultTopic = "" then .error .topicFieldMissing
    else publishQoS s td b s.defaultTopic
  | some tv =>
    match asString tv with
    | none => .error (.topicNotString tv.vtype)
    | some topic => publishQoS s td b topic

/-- sink.Write (sink.go lines 200-251): a disconnected client makes the
write a silent no-op (`.ok none`, no field is resolved and no publish is
issued); otherwise resolve the payload by type and continue with topic
and qos resolution; `.ok (some call)` records the publish issued. -/
def sinkWrite (s : SinkConfig) (connected : Bool) (td : List (String × Value)) :
    Except WriteError (Option PublishCall) :=
  if !connected then .ok none
  else
    match dGet td s.payloadField with
    | none => .error .payloadFieldMissing
    | some p =>
      match p with
      | .str str => publishWith s td (strBytes str)
      | .blob b => publishWith s td b
      | .array _ => publishWith s td (strBytes (jsonString p))
      | .map _ => publishWith s td (strBytes (jsonString p))
      | _ => .error (.unsupportedPayloadType p.vtype)

/-- The default_qos handling of NewSink (sink.go lines 368-377): absent
means 0, present must be an int in 0..2. -/
def parseDefaultQoS (v : Option Value) : Except WriteError Nat :=
  match v with
  | none => .ok 0
  | some qv =>
    match asInt qv with
    | none => .error (.qosNotInt qv.vtype)
    | some q =>
      if q < 0 || q > 2 then .error (.wrongQoS q)
      else .ok q.toNat

/-! ## Claim theorems for the outbound bridge -/

/-- C6: on a connected sink the payload is resolved from the payload
field path with exactly this case analysis: missing field → missing
error as-is; string → the raw bytes of the string; blob → as-is; array
or map → the bytes of the canonical text serialization; anything else →
unsupported-payload-type error. -/
theorem sink_payload_case_analysis (s : SinkConfig) (td : List (String × Value)) :
    (dGet td s.payloadField = none →
      sinkWrite s true td = .error .payloadFieldMissing) ∧
    (∀ str, dGet td s.payloadField = some (.str str) →
      sinkWrite s true td = publishWith s td (strBytes str)) ∧
    (∀ b, dGet td s.payloadField = some (.blob b) →
      sinkWrite s true td = publishWith s td b) ∧
    (∀ p, dGet td s.payloadField = some p → (p.vtype = .array ∨ p.vtype = .map) →
      sinkWrite s true td = publishWith s td (strBytes (jsonString p))) ∧
    (∀ p, dGet td s.payloadField = some p →
      p.vtype ≠ .str → p.vtype ≠ .blob → p.vtype ≠ .array → p.vtype ≠ .map →
      sinkWrite s true td = .error (.unsupportedPayloadType p.vtype)) := by
  refine ⟨fun h => by simp [sinkWrite, h], fun str h => by simp [sinkWrite, h],
    fun b h => by simp [sinkWrite, h], fun p h hv => ?_,
    fun p h h1 h2 h3 h4 => ?_⟩
  · cases p <;> simp [Value.vtype] at hv <;> simp [sinkWrite, h]
  · cases p <;> simp [Value.vtype] at h1 h2 h3 h4 <;>
      simp [sinkWrite, h, Value.vtype]

theorem sink_payload_case_analysis_witness :
    sinkWrite defaultSinkConfig true [("payload", .int 7)]
      = .error (.unsupportedPayloadType .int) :=
  (sink_payload_case_analysis defaultSinkConfig [("payload", .int 7)]).2.2.2.2
    (.int 7) rfl (by decide) (by decide) (by decide) (by decide)

/-- C7: topic and qos resolution of a connected write whose payload
resolved: a string topic field is the publish topic; a present
non-string topic field is a conversion error; an absent topic field
falls back to a non-empty default topic or is the missing-topic error;
a present qos field must be an int equal to 0, 1 or 2, out-of-range
values are the invalid-QoS error, a non-int is a conversion error; an
absent qos field falls back to the configured default, which the
construction-time check `parseDefaultQoS` confines to 0..2. -/
theorem sink_topic_qos_resolution (s : SinkConfig) (td : List (String × Value))
    (b : List Nat) :
    (∀ bb, dGet td s.payloadField = some (.blob bb) →
      sinkWrite s true td = publishWith s td bb) ∧
    (∀ ts, dGet td s.topicField = some (.str ts) → dGet td s.qosField = none →
      publishWith s td b = .ok (some ⟨ts, s.qos, s.retained, b⟩)) ∧
    (∀ tv, dGet td s.topicField = some tv → asString tv = none →
      publishWith s td b = .error (.topicNotString tv.vtype)) ∧
    (dGet td s.topicField = none → s.defaultTopic ≠ "" → dGet td s.qosField = none →
      publishWith s td b = .ok (some ⟨s.defaultTopic, s.qos, s.retained, b⟩)) ∧
    (dGet td s.topicField = none → s.defaultTopic = "" →
      publishWith s td b = .error .topicFieldMissing) ∧
    (∀ ts qv, dGet td s.topicField = some (.str ts) → dGet td s.qosField = some qv →
      asInt qv = none → publishWith s td b = .error (.qosNotInt qv.vtype)) ∧
    (∀ ts q, dGet td s.topicField = some (.str ts) →
      dGet td s.qosField = some (.int q) → (q < 0 ∨ 2 < q) →
      publishWith s td b = .error (.wrongQoS q)) ∧
    (∀ ts q, dGet td s.topicField = some (.str ts) →
      dGet td s.qosField = some (.int q) → 0 ≤ q → q ≤ 2 →
      publishWith s td b = .ok (some ⟨ts, q.toNat, s.retained, b⟩)) ∧
    (∀ v q, parseDefaultQoS v = .ok q → q ≤ 2) := by
  refine ⟨fun bb h => by simp [sinkWrite, h],
    fun ts ht hq => by simp [publishWith, publishQoS, ht, hq, asString],
    fun tv ht ha => by simp [publishWith, ht, ha],
    fun ht hd hq => by simp [publishWith, publishQoS, ht, hd, hq],
    fun ht hd => by simp [publishWith, ht, hd],
    fun ts qv ht hq ha => by simp [publishWith, publishQoS, asString, ht, hq, ha],
    fun ts q ht hq hr => ?_, fun ts q ht hq h0 h2 => ?_, fun v q h => ?_⟩
  · have hc : (decide (q < 0) || decide (q > 2)) = true := by
      rcases hr with hr | hr <;> simp <;> omega
    simp [publishWith, publishQoS, asString, asInt, ht, hq, hc]
  · have hc : (decide (q < 0) || decide (q > 2)) = false := by
      simp; omega
    simp [publishWith, publishQoS, asString, asInt, ht, hq, hc]
  · cases v with
    | none => simp [parseDefaultQoS] at h; omega
    | some qv =>
      cases hai : asInt qv with
      | none => simp [parseDefaultQoS, hai] at h
      | some i =>
        simp only [parseDefaultQoS, hai] at h
        split at h
        · exact absurd h (by simp)
        · rename_i hb
          simp at hb
          simp only [Except.ok.injEq] at h
          omega

theorem sink_topic_qos_resolution_witness :
    publishWith defaultSinkConfig [("topic", .str "a/b"), ("payload", .str "hello")]
      ((strBytes "hello"))
      = .ok (some ⟨"a/b", 0, false, strBytes "hello"⟩) :=
  (sink_topic_qos_resolution defaultSinkConfig
    [("topic", .str "a/b"), ("payload", .str "hello")] (strBytes "hello")).2.1
    "a/b" rfl rfl

/-- C8: writing to a disconnected sink is a silent no-op: nil return,
no field of the record is resolved and no publish call is issued. -/
theorem sink_disconnected_noop (s : SinkConfig) (td : List (String × Value)) :
    sinkWrite s false td = .ok none := rfl

/-! ## Broker address normalization -/

/-- Split a character list at the first "://", returning the scheme
part and the remainder. -/
def splitSchemeSep : List Char → Option (List Char × List Char)
  | ':' :: '/' :: '/' :: rest => some ([], rest)
  | c :: rest => (splitSchemeSep rest).map (fun p => (c :: p.1, p.2))
  | [] => none

/-- Split a character list at the first colon. -/
def splitColon : List Char → Option (List Char × List Char)
  | ':' :: rest => some ([], rest)
  | c :: rest => (splitColon rest).map (fun p => (c :: p.1, p.2))
  | [] => none

/-- Modelled from the spec: the broker address normalization function
(the repository's `adjustOldBrokerURL`, exercised by
TestAdjustOldBrokerURL) is not among the sources, only its unit test
is.  Per the spec: an address already carrying a scheme separator is
kept unchanged unless its scheme is empty, which is an error; an
address without a separator is a bare host:port — an empty host or an
empty port is an error — or a bare host, which receives the default
port 1883; the rewritten form is prefixed with tcp://. -/
def adjustOldBrokerURL (u : String) : Except String String :=
  match splitSchemeSep u.data with
  | some (scheme, _) =>
    if scheme.isEmpty then .error ("empty scheme in broker URL: " ++ u)
    else .ok u
  | none =>
    match splitColon u.data with
    | none =>
      if u.data.isEmpty then .error ("empty broker address")
      else .ok ("tcp://" ++ u ++ ":1883")
    | some (h, p) =>
      if h.isEmpty || p.isEmpty then .error ("broker address misses host or port: " ++ u)
      else .ok ("tcp://" ++ u)

/-- C9: the normalization satisfies the whole TestAdjustOldBrokerURL
table plus the spec's host:1883 example. -/
theorem adjustOldBrokerURL_cases :
    adjustOldBrokerURL "tcp://host:1234" = .ok "tcp://host:1234" ∧
    adjustOldBrokerURL "ws://host:1234" = .ok "ws://host:1234" ∧
    adjustOldBrokerURL "://host:1234"
      = .error ("empty scheme in broker URL: " ++ "://host:1234") ∧
    adjustOldBrokerURL "hostonly" = .ok "tcp://hostonly:1883" ∧
    adjustOldBrokerURL "host:1234" = .ok "tcp://host:1234" ∧
    adjustOldBrokerURL "host:"
      = .error ("broker address misses host or port: " ++ "host:") ∧
    adjustOldBrokerURL ":1234"
      = .error ("broker address misses host or port: " ++ ":1234") ∧
    adjustOldBrokerURL "host:1883" = .ok "tcp://host:1883" :=
  ⟨rfl, rfl, rfl, rfl, rfl, rfl, rfl, rfl⟩

end Mqtt
